import Mathlib

/-!
# Verification of the `watch` channel (latest-value broadcast primitive)

Shallow embedding of the crate's core: the shared versioned slot, the sender
and receiver operations, the blocking-wait loops (with wakeup sequences made
explicit), and the two lock-backend `Condvar::wait_timeout` wrappers.

Conventions:
* Rust `u64` arithmetic is modelled as `Nat` with explicit reduction modulo
  `U64 = 2 ^ 64` where the source uses `wrapping_add`.
* A receiver's private `last_seen_version` cursor is passed and returned
  explicitly (the source mutates it through `&mut self`).
* Blocking (`wait`, `wait_timeout`) is modelled by an explicit list of wakeup
  events: each event is the slot state observed when the lock is reacquired
  after a condition-variable wake (which may be spurious, or may follow
  concurrent sends).  Running out of events models a thread that is still
  blocked.
-/

/-- The modulus of Rust `u64` arithmetic, `2 ^ 64`. -/
def U64 : Nat := 18446744073709551616

/-- `SharedValue<T>` from `lib.rs`: the state protected by the channel's lock,
the current payload together with its version counter. -/
structure SharedValue (α : Type) where
  value : α
  version : Nat

/-- `channel(value)` from `lib.rs`: builds the shared slot with `version = 1`
and returns the first receiver's cursor, which starts at `0`.  (The sender
handle carries no private state, so it needs no component here.) -/
def channel (value : α) : SharedValue α × Nat :=
  ({ value := value, version := 1 }, 0)

/-- `WatchSender::send` from `lib.rs`, the state part: swap the new value into
the slot, bump the version with `wrapping_add(1)`.  Returns the new slot
together with the displaced old value (which the source drops only after the
lock is released). -/
def send (slot : SharedValue α) (value : α) : SharedValue α × α :=
  ({ value := value, version := (slot.version + 1) % U64 }, slot.value)

/-- One step in the straight-line body of `WatchSender::send`, used to record
the order of effects. -/
inductive SendEvent (α : Type) where
  | lockAcquired
  | swap (oldVal newVal : α)
  | bumpVersion (oldVer newVer : Nat)
  | lockReleased
  | notifyAll
  | dropOld (v : α)

/-- The sequence of effects performed by `WatchSender::send`, in source order:
acquire the lock, `mem::swap` the value, `wrapping_add` the version, release
the lock (end of the inner scope), `notify_all`, and only then drop the old
value. -/
def sendEvents (slot : SharedValue α) (value : α) : List (SendEvent α) :=
  [SendEvent.lockAcquired,
   SendEvent.swap slot.value value,
   SendEvent.bumpVersion slot.version ((slot.version + 1) % U64),
   SendEvent.lockReleased,
   SendEvent.notifyAll,
   SendEvent.dropOld slot.value]

/-- `WatchSender::update` from `lib.rs`: mutate the value in place, bump the
version with `wrapping_add(1)`. -/
def update (slot : SharedValue α) (f : α → α) : SharedValue α :=
  { value := f slot.value, version := (slot.version + 1) % U64 }

/-- `WatchSender::subscribe` from `lib.rs`: read the current version under the
lock and return it as the new receiver's cursor. -/
def subscribe (slot : SharedValue α) : Nat :=
  slot.version

/-- `WatchReceiver::get` from `lib.rs`: set the cursor to the slot's current
version and return a clone of the value.  Returns `(new cursor, value)`; the
result does not depend on the receiver's previous cursor. -/
def get (cursor : Nat) (slot : SharedValue α) : Nat × α :=
  (slot.version, slot.value)

/-- `WatchReceiver::get_if_new` from `lib.rs`: if the cursor equals the slot's
version, return `none` leaving the cursor unchanged; otherwise advance the
cursor to the slot's version and return a clone of the value. -/
def get_if_new (cursor : Nat) (slot : SharedValue α) : Nat × Option α :=
  if cursor = slot.version then
    (cursor, none)
  else
    (slot.version, some slot.value)

/-- `WatchReceiver::wait` from `lib.rs`.  `slot` is the state seen when the
lock is first acquired; `wakeups` lists the slot states observed at each
reacquisition after `on_update.wait`.  While the observed version equals the
cursor the loop waits again; once it differs the cursor is set to that version
and the value returned.  `none` means the wakeup list was exhausted with the
thread still blocked. -/
def wait (cursor : Nat) (slot : SharedValue α) (wakeups : List (SharedValue α)) :
    Option (Nat × α) :=
  if slot.version = cursor then
    match wakeups with
    | [] => none
    | s :: rest => wait cursor s rest
  else
    some (slot.version, slot.value)

/-- Result of a `WatchReceiver::wait_timeout` run. -/
inductive WtResult (α : Type) where
  | value (ver : Nat) (v : α)
  | timedOut
  | blocked

/-- One wakeup event for `wait_timeout`: `now` is what `Instant::now()` reads
when the remaining time is computed for this iteration, and `woke` is what the
backend's `Condvar::wait_timeout` returned — `some s` for a reacquired lock
observing slot state `s`, `none` when the backend reported no guard (the `?`
in the source). -/
structure WtEvent (α : Type) where
  now : Nat
  woke : Option (SharedValue α)

/-- The loop of `WatchReceiver::wait_timeout` from `lib.rs`, with the deadline
already computed.  Besides the result it returns the list of timeout values
passed to the condition variable, one per iteration, each computed as
`deadline.saturating_duration_since(now)` (truncated `Nat` subtraction).
After a wake the source first checks `timeout.is_zero() && version == cursor`
(returning `none`), then re-checks the loop condition. -/
def wait_timeout_loop (cursor deadline : Nat) (slot : SharedValue α)
    (events : List (WtEvent α)) : WtResult α × List Nat :=
  if slot.version = cursor then
    match events with
    | [] => (WtResult.blocked, [])
    | e :: rest =>
      let timeout := deadline - e.now
      match e.woke with
      | none => (WtResult.timedOut, [timeout])
      | some s =>
        if timeout = 0 ∧ s.version = cursor then
          (WtResult.timedOut, [timeout])
        else
          let r := wait_timeout_loop cursor deadline s rest
          (r.1, timeout :: r.2)
  else
    (WtResult.value slot.version slot.value, [])

/-- `WatchReceiver::wait_timeout` from `lib.rs`: the absolute deadline is
computed once at entry as `Instant::now() + duration` (`start + duration`),
then the loop runs. -/
def wait_timeout (cursor : Nat) (slot : SharedValue α) (start duration : Nat)
    (events : List (WtEvent α)) : WtResult α × List Nat :=
  wait_timeout_loop cursor (start + duration) slot events

/-- Result of `std::sync::Condvar::wait_timeout` as used in `sync_std.rs`:
`Ok((guard, timeout_result))` on a wake (timed out or notified), or a poison
`Err` carrying the guard (which the wrapper discards). -/
inductive StdWait (σ : Type) where
  | ok (guard : σ) (timedOut : Bool)
  | err (guard : σ)

/-- `Condvar::wait_timeout` from `sync_std.rs`: `Ok((guard, _)) => Some(guard)`
— the timeout flag is discarded — and `Err(_) => None`. -/
def stdCondvarWaitTimeout : StdWait σ → Option σ
  | StdWait.ok g _ => some g
  | StdWait.err _ => none

/-- `Condvar::wait_timeout` from `sync_parking_lot.rs`: the wake always
returns the guard and a timeout flag; the wrapper returns `None` exactly when
`timed_out()` holds. -/
def plCondvarWaitTimeout (guard : σ) (timedOut : Bool) : Option σ :=
  if timedOut then none else some guard

/-- Modelled from the spec: the Blocking Lock Abstraction contract for
`wait_timeout` (§4.1) — the wrapper "returns no guard on a definitive timeout
with no pending notification", i.e. it returns no guard exactly when the
primitive reports a timed-out wake. -/
def contractWaitTimeout (guard : σ) (timedOut : Bool) : Option σ :=
  if timedOut then none else some guard

/-- A write operation on the channel: `send` replaces the value, `update`
mutates it in place; both bump the version identically. -/
inductive WriteOp (α : Type) where
  | send (v : α)
  | update (f : α → α)

/-- Apply one write operation to the slot. -/
def applyWrite (slot : SharedValue α) : WriteOp α → SharedValue α
  | WriteOp.send v => (send slot v).1
  | WriteOp.update f => update slot f

/-- Apply a sequence of write operations to the slot, in order. -/
def applyWrites (slot : SharedValue α) (ws : List (WriteOp α)) : SharedValue α :=
  ws.foldl applyWrite slot

/-- Apply a sequence of `send`s to the slot, in order. -/
def sendAll (slot : SharedValue α) (vs : List α) : SharedValue α :=
  applyWrites slot (vs.map WriteOp.send)

/-! ## Helper lemmas -/

lemma U64_pos : 0 < U64 := by decide

lemma succ_mod_U64_ne (n : Nat) (h : n < U64) : (n + 1) % U64 ≠ n := by
  intro hEq
  rcases Nat.lt_or_ge (n + 1) U64 with h1 | h1
  · rw [Nat.mod_eq_of_lt h1] at hEq
    omega
  · have hn : n + 1 = U64 := by omega
    rw [hn, Nat.mod_self] at hEq
    have h2 : (1 : Nat) < U64 := by decide
    omega

lemma add_mod_U64_eq_self_iff (c n : Nat) (hc : c < U64) :
    (c + n) % U64 = c ↔ U64 ∣ n := by
  constructor
  · intro h
    have hr : n % U64 < U64 := Nat.mod_lt _ U64_pos
    rw [Nat.add_mod, Nat.mod_eq_of_lt hc] at h
    rcases Nat.lt_or_ge (c + n % U64) U64 with h2 | h2
    · rw [Nat.mod_eq_of_lt h2] at h
      exact Nat.dvd_of_mod_eq_zero (by omega)
    · rw [Nat.mod_eq_sub_mod h2, Nat.mod_eq_of_lt (by omega)] at h
      exfalso
      omega
  · rintro ⟨k, rfl⟩
    rw [Nat.add_mul_mod_self_left, Nat.mod_eq_of_lt hc]

lemma get_if_new_none_iff (cursor : Nat) (slot : SharedValue α) :
    (get_if_new cursor slot).2 = none ↔ cursor = slot.version := by
  by_cases h : cursor = slot.version <;> simp [get_if_new, h]

lemma applyWrite_version (slot : SharedValue α) (w : WriteOp α) :
    (applyWrite slot w).version = (slot.version + 1) % U64 := by
  cases w <;> rfl

lemma applyWrites_version :
    ∀ (ws : List (WriteOp α)) (slot : SharedValue α), slot.version < U64 →
      (applyWrites slot ws).version = (slot.version + ws.length) % U64 := by
  intro ws
  induction ws with
  | nil =>
    intro slot h
    simp [applyWrites, Nat.mod_eq_of_lt h]
  | cons w ws ih =>
    intro slot h
    have h1 : (applyWrite slot w).version < U64 := by
      rw [applyWrite_version]
      exact Nat.mod_lt _ U64_pos
    calc (applyWrites slot (w :: ws)).version
        = (applyWrites (applyWrite slot w) ws).version := rfl
      _ = ((applyWrite slot w).version + ws.length) % U64 := ih (applyWrite slot w) h1
      _ = ((slot.version + 1) % U64 + ws.length) % U64 := by rw [applyWrite_version]
      _ = (slot.version + 1 + ws.length) % U64 := Nat.mod_add_mod _ _ _
      _ = (slot.version + (w :: ws).length) % U64 := by
            rw [List.length_cons]
            congr 1
            omega

lemma getLast?_getD_cons :
    ∀ (l : List α) (a d : α), ((a :: l).getLast?).getD d = (l.getLast?).getD a := by
  intro l
  induction l with
  | nil => intro a d; rfl
  | cons b l ih =>
    intro a d
    rw [List.getLast?_cons_cons, ih b d, ih b a]

lemma sendAll_value :
    ∀ (vs : List α) (slot : SharedValue α),
      (sendAll slot vs).value = vs.getLast?.getD slot.value := by
  intro vs
  induction vs with
  | nil => intro slot; rfl
  | cons v vs ih =>
    intro slot
    have h1 : sendAll slot (v :: vs) = sendAll ((send slot v).1) vs := rfl
    rw [h1, ih, getLast?_getD_cons]
    rfl

lemma get_if_new_writes_iff (cursor : Nat) (slot : SharedValue α)
    (ws : List (WriteOp α)) (hc : slot.version = cursor) (hlt : cursor < U64) :
    ((get_if_new cursor (applyWrites slot ws)).2 = none ↔ U64 ∣ ws.length) := by
  rw [get_if_new_none_iff, applyWrites_version ws slot (hc ▸ hlt), hc, eq_comm]
  exact add_mod_U64_eq_self_iff cursor ws.length hlt

/-! ## Claim theorems -/

/-- Claim C2: `get_if_new` returns `none` exactly when the receiver's cursor
equals the slot's version (leaving the cursor unchanged), and otherwise
advances the cursor to the slot's version and returns a copy of the value;
the empty result is an ordinary `Option` value, not an error. -/
theorem get_if_new_spec (cursor : Nat) (slot : SharedValue α) :
    ((get_if_new cursor slot).2 = none ↔ cursor = slot.version) ∧
    (cursor = slot.version → get_if_new cursor slot = (cursor, none)) ∧
    (cursor ≠ slot.version →
      get_if_new cursor slot = (slot.version, some slot.value)) := by
  refine ⟨get_if_new_none_iff cursor slot, ?_, ?_⟩ <;>
    intro h <;> simp [get_if_new, h]

/-- Witness for C2 at concrete inputs: a seen version yields `none`, an unseen
one yields the value with the advanced cursor. -/
theorem get_if_new_spec_witness :
    get_if_new 1 (⟨5, 1⟩ : SharedValue Nat) = (1, none) ∧
    get_if_new 0 (⟨5, 1⟩ : SharedValue Nat) = (1, some 5) :=
  ⟨(get_if_new_spec 1 ⟨5, 1⟩).2.1 rfl,
   (get_if_new_spec 0 ⟨5, 1⟩).2.2 (by decide)⟩

/-- Claim C3: `send` replaces the slot's value with the new value and sets the
version to the old version plus one modulo `2 ^ 64` (increment with
wraparound), touching nothing else of the slot; in the effect sequence the
displaced old value is dropped strictly after the lock release and the
`notify_all`, and at no earlier point. -/
theorem send_spec (slot : SharedValue α) (v : α) :
    (send slot v).1.value = v ∧
    (send slot v).1.version = (slot.version + 1) % U64 ∧
    (send slot v).2 = slot.value ∧
    (sendEvents slot v).length = 6 ∧
    (sendEvents slot v).get? 3 = some SendEvent.lockReleased ∧
    (sendEvents slot v).get? 4 = some SendEvent.notifyAll ∧
    (sendEvents slot v).get? 5 = some (SendEvent.dropOld slot.value) ∧
    (∀ i, i < 5 → ∀ w, (sendEvents slot v).get? i ≠ some (SendEvent.dropOld w)) := by
  refine ⟨rfl, rfl, rfl, rfl, rfl, rfl, rfl, ?_⟩
  intro i hi w
  interval_cases i <;> simp [sendEvents]

/-- Witness for C3: at a concrete channel state, no `dropOld` effect occurs at
position 4 (the `notify_all` position) of `send`'s effect sequence. -/
theorem send_spec_witness :
    (sendEvents (⟨0, 1⟩ : SharedValue Nat) 5).get? 4 ≠
      some (SendEvent.dropOld 7) :=
  (send_spec (⟨0, 1⟩ : SharedValue Nat) 5).2.2.2.2.2.2.2 4 (by decide) 7

/-- Claim C8: after any sequence of sends, `get` returns a copy of the most
recently sent value (the initial value when none were sent), its result does
not depend on the receiver's previous cursor, and it sets the cursor to the
slot's current version. -/
theorem get_returns_latest (cursor cursor2 : Nat) (slot : SharedValue α)
    (vs : List α) :
    (get cursor (sendAll slot vs)).2 = vs.getLast?.getD slot.value ∧
    (get cursor (sendAll slot vs)).1 = (sendAll slot vs).version ∧
    get cursor (sendAll slot vs) = get cursor2 (sendAll slot vs) :=
  ⟨sendAll_value vs slot, rfl, rfl⟩

/-- Claim C9: `channel` creates a slot with version 1 holding the initial
value and a receiver with cursor 0, so the initial value is unseen: the first
`get_if_new` and `wait` return it, as does `get`. -/
theorem channel_spec (v : α) :
    (channel v).1.version = 1 ∧ (channel v).1.value = v ∧ (channel v).2 = 0 ∧
    get_if_new (channel v).2 (channel v).1 = (1, some v) ∧
    wait (channel v).2 (channel v).1 [] = some (1, v) ∧
    get (channel v).2 (channel v).1 = (1, v) :=
  ⟨rfl, rfl, rfl, rfl, rfl, rfl⟩

/-- Claim C1: `wait` never returns while the observed version equals the
cursor: every returned result comes from some observed slot state whose
version differs from the cursor (the new cursor is that version and the value
a copy of that state's value), and if every wakeup — however spurious — shows
a version equal to the cursor, the loop never returns. -/
theorem wait_blocks_until_new_version (cursor : Nat) (slot : SharedValue α)
    (wakeups : List (SharedValue α)) :
    (∀ ver v, wait cursor slot wakeups = some (ver, v) →
       ver ≠ cursor ∧ ∃ s ∈ slot :: wakeups, s.version = ver ∧ s.value = v) ∧
    ((∀ s ∈ slot :: wakeups, s.version = cursor) →
       wait cursor slot wakeups = none) := by
  induction wakeups generalizing slot with
  | nil =>
    constructor
    · intro ver v h
      by_cases hv : slot.version = cursor
      · simp [wait, hv] at h
      · rw [wait, if_neg hv] at h
        obtain ⟨h1, h2⟩ := Prod.mk.injEq .. ▸ Option.some.injEq .. ▸ h
        exact ⟨h1 ▸ hv, slot, by simp, h1, h2⟩
    · intro hall
      rw [wait, if_pos (hall slot (by simp))]
  | cons s rest ih =>
    constructor
    · intro ver v h
      by_cases hv : slot.version = cursor
      · rw [wait, if_pos hv] at h
        obtain ⟨hne, t, ht, h1, h2⟩ := (ih s).1 ver v h
        exact ⟨hne, t, List.mem_cons_of_mem slot ht, h1, h2⟩
      · rw [wait, if_neg hv] at h
        obtain ⟨h1, h2⟩ := Prod.mk.injEq .. ▸ Option.some.injEq .. ▸ h
        exact ⟨h1 ▸ hv, slot, by simp, h1, h2⟩
    · intro hall
      rw [wait, if_pos (hall slot (by simp))]
      exact (ih s).2 fun t ht => hall t (List.mem_cons_of_mem slot ht)

/-- Witness for C1: on a concrete run the returned version differs from the
cursor and comes from an observed state, and a run of purely spurious wakeups
returns nothing. -/
theorem wait_blocks_until_new_version_witness :
    ((2 : Nat) ≠ 1 ∧
      ∃ s ∈ [(⟨5, 1⟩ : SharedValue Nat), ⟨5, 1⟩, ⟨7, 2⟩],
        s.version = 2 ∧ s.value = 7) ∧
    wait 1 (⟨5, 1⟩ : SharedValue Nat) [⟨5, 1⟩, ⟨5, 1⟩] = none :=
  ⟨(wait_blocks_until_new_version 1 ⟨5, 1⟩ [⟨5, 1⟩, ⟨7, 2⟩]).1 2 7 rfl,
   (wait_blocks_until_new_version 1 ⟨5, 1⟩ [⟨5, 1⟩, ⟨5, 1⟩]).2 (by decide)⟩

/-- Claim C6: a single write always changes the version away from an
up-to-date cursor, including at the `u64` wraparound: if the cursor equals the
slot's version (any value below `2 ^ 64`, including `2 ^ 64 - 1`), then after
one `send` the version differs from the cursor, `get_if_new` returns the new
value, and the `wait` predicate sees it as new immediately. -/
theorem wraparound_detected_as_new (cursor : Nat) (slot : SharedValue α)
    (v : α) (hlt : cursor < U64) (heq : slot.version = cursor) :
    (send slot v).1.version ≠ cursor ∧
    get_if_new cursor (send slot v).1 = ((send slot v).1.version, some v) ∧
    wait cursor (send slot v).1 [] = some ((send slot v).1.version, v) := by
  have hne : (send slot v).1.version ≠ cursor := by
    have h1 : (send slot v).1.version = (cursor + 1) % U64 := by
      rw [← heq]; rfl
    rw [h1]
    exact succ_mod_U64_ne cursor hlt
  refine ⟨hne, ?_, ?_⟩
  · rw [get_if_new, if_neg fun h => hne h.symm]
    rfl
  · rw [wait, if_neg hne]
    rfl

/-- Witness for C6 at the wraparound point: with cursor and version both at
`u64::MAX`, one send makes the version (now 0) differ from the cursor and the
new value observable. -/
theorem wraparound_detected_as_new_witness :
    (send (⟨0, 18446744073709551615⟩ : SharedValue Nat) 42).1.version ≠
        18446744073709551615 ∧
    get_if_new 18446744073709551615
        (send (⟨0, 18446744073709551615⟩ : SharedValue Nat) 42).1 =
      ((send (⟨0, 18446744073709551615⟩ : SharedValue Nat) 42).1.version,
        some 42) ∧
    wait 18446744073709551615
        (send (⟨0, 18446744073709551615⟩ : SharedValue Nat) 42).1 [] =
      some ((send (⟨0, 18446744073709551615⟩ : SharedValue Nat) 42).1.version,
        42) :=
  wraparound_detected_as_new 18446744073709551615 ⟨0, 18446744073709551615⟩ 42
    (by decide) rfl

/-- Claim C7: `subscribe` yields a cursor equal to the slot's current version,
so `get_if_new` returns nothing before a further send; after exactly one send
it returns the new value once, and a second immediate call returns nothing. -/
theorem subscribe_spec (slot : SharedValue α) (v : α)
    (h : slot.version < U64) :
    subscribe slot = slot.version ∧
    (get_if_new (subscribe slot) slot).2 = none ∧
    get_if_new (subscribe slot) (send slot v).1 =
      ((send slot v).1.version, some v) ∧
    (get_if_new (get_if_new (subscribe slot) (send slot v).1).1
        (send slot v).1).2 = none := by
  have hne : (send slot v).1.version ≠ subscribe slot :=
    succ_mod_U64_ne slot.version h
  have h3 : get_if_new (subscribe slot) (send slot v).1 =
      ((send slot v).1.version, some v) := by
    rw [get_if_new, if_neg fun hx => hne hx.symm]
    rfl
  refine ⟨rfl, ?_, h3, ?_⟩
  · simp [get_if_new, subscribe]
  · rw [h3]
    simp [get_if_new]

/-- Witness for C7 on a concrete channel: subscribing at version 1 sees
nothing new, one send of 9 is seen exactly once. -/
theorem subscribe_spec_witness :
    subscribe (⟨5, 1⟩ : SharedValue Nat) = 1 ∧
    (get_if_new (subscribe (⟨5, 1⟩ : SharedValue Nat)) ⟨5, 1⟩).2 = none ∧
    get_if_new (subscribe (⟨5, 1⟩ : SharedValue Nat))
        (send (⟨5, 1⟩ : SharedValue Nat) 9).1 =
      ((send (⟨5, 1⟩ : SharedValue Nat) 9).1.version, some 9) ∧
    (get_if_new
        (get_if_new (subscribe (⟨5, 1⟩ : SharedValue Nat))
          (send (⟨5, 1⟩ : SharedValue Nat) 9).1).1
        (send (⟨5, 1⟩ : SharedValue Nat) 9).1).2 = none :=
  subscribe_spec ⟨5, 1⟩ 9 (by decide)

/-- Claim C10: newness is pure `u64` equality of cursor and version, so with
an up-to-date cursor a receiver detects intervening writes (`send` or
`update`) exactly when their number is not a multiple of `2 ^ 64`; in
particular some sequence of exactly `2 ^ 64` writes wraps the version back
onto the cursor and `get_if_new` reports nothing new despite the writes. -/
theorem writes_hidden_iff_multiple_of_U64 (cursor : Nat)
    (slot : SharedValue α) (ws : List (WriteOp α)) (hc : slot.version = cursor)
    (hlt : cursor < U64) :
    ((get_if_new cursor (applyWrites slot ws)).2 = none ↔ U64 ∣ ws.length) ∧
    ∃ vs : List Nat, vs.length = U64 ∧
      (get_if_new 1
        (applyWrites (⟨0, 1⟩ : SharedValue Nat) (vs.map WriteOp.send))).2 =
        none := by
  refine ⟨get_if_new_writes_iff cursor slot ws hc hlt,
    List.replicate U64 0, List.length_replicate U64 0, ?_⟩
  rw [get_if_new_writes_iff 1 ⟨0, 1⟩ _ rfl (by decide)]
  rw [List.length_map, List.length_replicate]

/-- Witness for C10: a single write is detected (1 is not a multiple of
`2 ^ 64`), via the main equivalence at a concrete state. -/
theorem writes_hidden_iff_multiple_of_U64_witness :
    ((get_if_new 1
        (applyWrites (⟨0, 1⟩ : SharedValue Nat) [WriteOp.send 5])).2 = none ↔
      U64 ∣ [WriteOp.send 5].length) ∧
    ∃ vs : List Nat, vs.length = U64 ∧
      (get_if_new 1
        (applyWrites (⟨0, 1⟩ : SharedValue Nat) (vs.map WriteOp.send))).2 =
        none :=
  writes_hidden_iff_multiple_of_U64 1 ⟨0, 1⟩ [WriteOp.send 5] rfl (by decide)

/-! ## Step lemmas for the `wait_timeout` loop -/

lemma wtl_not_new (cursor deadline : Nat) (slot : SharedValue α)
    (events : List (WtEvent α)) (hv : ¬slot.version = cursor) :
    wait_timeout_loop cursor deadline slot events =
      (WtResult.value slot.version slot.value, []) := by
  cases events <;> rw [wait_timeout_loop, if_neg hv]

lemma wtl_nil_seen (cursor deadline : Nat) (slot : SharedValue α)
    (hv : slot.version = cursor) :
    wait_timeout_loop cursor deadline slot [] = (WtResult.blocked, []) := by
  rw [wait_timeout_loop, if_pos hv]

lemma wtl_cons_none (cursor deadline : Nat) (slot : SharedValue α)
    (e : WtEvent α) (rest : List (WtEvent α)) (hv : slot.version = cursor)
    (hw : e.woke = none) :
    wait_timeout_loop cursor deadline slot (e :: rest) =
      (WtResult.timedOut, [deadline - e.now]) := by
  rw [wait_timeout_loop, if_pos hv]
  simp [hw]

lemma wtl_cons_zero (cursor deadline : Nat) (slot s : SharedValue α)
    (e : WtEvent α) (rest : List (WtEvent α)) (hv : slot.version = cursor)
    (hw : e.woke = some s) (hz : deadline - e.now = 0 ∧ s.version = cursor) :
    wait_timeout_loop cursor deadline slot (e :: rest) =
      (WtResult.timedOut, [deadline - e.now]) := by
  rw [wait_timeout_loop, if_pos hv]
  simp [hw, hz.1, hz.2]

lemma wtl_cons_step (cursor deadline : Nat) (slot s : SharedValue α)
    (e : WtEvent α) (rest : List (WtEvent α)) (hv : slot.version = cursor)
    (hw : e.woke = some s) (hz : ¬(deadline - e.now = 0 ∧ s.version = cursor)) :
    wait_timeout_loop cursor deadline slot (e :: rest) =
      ((wait_timeout_loop cursor deadline s rest).1,
        (deadline - e.now) :: (wait_timeout_loop cursor deadline s rest).2) := by
  rw [wait_timeout_loop, if_pos hv]
  simp [hw, hz]

/-! ## Behavior of the `wait_timeout` loop -/

lemma wtl_trace :
    ∀ (events : List (WtEvent α)) (cursor deadline : Nat) (slot : SharedValue α),
      (wait_timeout_loop cursor deadline slot events).2 =
        (events.take (wait_timeout_loop cursor deadline slot events).2.length).map
          (fun e => deadline - e.now) := by
  intro events
  induction events with
  | nil =>
    intro cursor deadline slot
    by_cases hv : slot.version = cursor
    · rw [wtl_nil_seen cursor deadline slot hv]
      simp
    · rw [wtl_not_new cursor deadline slot [] hv]
      simp
  | cons e rest ih =>
    intro cursor deadline slot
    by_cases hv : slot.version = cursor
    · cases hw : e.woke with
      | none =>
        rw [wtl_cons_none cursor deadline slot e rest hv hw]
        simp
      | some s =>
        by_cases hz : deadline - e.now = 0 ∧ s.version = cursor
        · rw [wtl_cons_zero cursor deadline slot s e rest hv hw hz]
          simp
        · rw [wtl_cons_step cursor deadline slot s e rest hv hw hz]
          simp only [List.length_cons, List.take_succ_cons, List.map_cons,
            List.cons.injEq, true_and]
          exact ih cursor deadline s
    · rw [wtl_not_new cursor deadline slot (e :: rest) hv]
      simp

lemma wtl_none_event_timedOut :
    ∀ (pre : List (WtEvent α)) (cursor deadline : Nat) (slot : SharedValue α)
      (n : Nat) (rest : List (WtEvent α)),
      slot.version = cursor →
      (∀ e ∈ pre, ∃ s, e.woke = some s ∧ s.version = cursor ∧
        0 < deadline - e.now) →
      (wait_timeout_loop cursor deadline slot
        (pre ++ ({ now := n, woke := none } : WtEvent α) :: rest)).1 =
        WtResult.timedOut := by
  intro pre
  induction pre with
  | nil =>
    intro cursor deadline slot n rest hv _
    rw [List.nil_append,
      wtl_cons_none cursor deadline slot ⟨n, none⟩ rest hv rfl]
  | cons e pre ih =>
    intro cursor deadline slot n rest hv hall
    obtain ⟨s, hw, hsv, hpos⟩ := hall e (List.mem_cons_self e pre)
    have hz : ¬(deadline - e.now = 0 ∧ s.version = cursor) := by
      intro hc
      omega
    rw [List.cons_append, wtl_cons_step cursor deadline slot s e _ hv hw hz]
    exact ih cursor deadline s n rest hsv
      (fun e' he' => hall e' (List.mem_cons_of_mem e he'))

lemma wtl_timedOut_called (cursor deadline : Nat) (slot : SharedValue α)
    (events : List (WtEvent α))
    (h : (wait_timeout_loop cursor deadline slot events).1 = WtResult.timedOut) :
    (wait_timeout_loop cursor deadline slot events).2 ≠ [] := by
  by_cases hv : slot.version = cursor
  · cases events with
    | nil =>
      rw [wtl_nil_seen cursor deadline slot hv] at h
      exact WtResult.noConfusion h
    | cons e rest =>
      cases hw : e.woke with
      | none =>
        rw [wtl_cons_none cursor deadline slot e rest hv hw]
        simp
      | some s =>
        by_cases hz : deadline - e.now = 0 ∧ s.version = cursor
        · rw [wtl_cons_zero cursor deadline slot s e rest hv hw hz]
          simp
        · rw [wtl_cons_step cursor deadline slot s e rest hv hw hz]
          simp
  · rw [wtl_not_new cursor deadline slot events hv] at h
    exact WtResult.noConfusion h

lemma wtl_first_call (cursor deadline : Nat) (slot : SharedValue α)
    (e : WtEvent α) (rest : List (WtEvent α)) (hv : slot.version = cursor) :
    (wait_timeout_loop cursor deadline slot (e :: rest)).2 ≠ [] := by
  cases hw : e.woke with
  | none =>
    rw [wtl_cons_none cursor deadline slot e rest hv hw]
    simp
  | some s =>
    by_cases hz : deadline - e.now = 0 ∧ s.version = cursor
    · rw [wtl_cons_zero cursor deadline slot s e rest hv hw hz]
      simp
    · rw [wtl_cons_step cursor deadline slot s e rest hv hw hz]
      simp

/-- Claim C4: `wait_timeout` fixes the absolute deadline `start + duration`
once at entry and on each iteration passes the condition variable the
remaining time recomputed from that fixed deadline (the trace equation); when
the condition-variable wrapper reports no guard — a timeout — after
iterations that were still waiting, the result is "no new value"; every
timed-out run made at least one condition-variable call; and even with a zero
duration, a receiver that starts with no new version makes at least one wait
attempt. -/
theorem wait_timeout_spec (cursor start duration : Nat) (slot : SharedValue α)
    (events : List (WtEvent α)) :
    ((wait_timeout cursor slot start duration events).2 =
      (events.take
        (wait_timeout cursor slot start duration events).2.length).map
        (fun e => (start + duration) - e.now)) ∧
    (∀ pre n rest, slot.version = cursor →
      events = pre ++ ({ now := n, woke := none } : WtEvent α) :: rest →
      (∀ e ∈ pre, ∃ s, e.woke = some s ∧ s.version = cursor ∧
        0 < (start + duration) - e.now) →
      (wait_timeout cursor slot start duration events).1 = WtResult.timedOut) ∧
    ((wait_timeout cursor slot start duration events).1 = WtResult.timedOut →
      (wait_timeout cursor slot start duration events).2 ≠ []) ∧
    (duration = 0 → slot.version = cursor →
      ∀ e rest, events = e :: rest →
      (wait_timeout cursor slot start duration events).2 ≠ []) := by
  refine ⟨wtl_trace events cursor (start + duration) slot, ?_, ?_, ?_⟩
  · intro pre n rest hv hev hall
    subst hev
    exact wtl_none_event_timedOut pre cursor (start + duration) slot n rest hv
      hall
  · exact wtl_timedOut_called cursor (start + duration) slot events
  · intro _ hv e rest hev
    subst hev
    exact wtl_first_call cursor (start + duration) slot e rest hv

/-- Witness for C4: with a zero duration, an up-to-date cursor and a single
wake reporting no guard, the run times out after exactly one (non-skipped)
condition-variable call. -/
theorem wait_timeout_spec_witness :
    (wait_timeout 1 (⟨5, 1⟩ : SharedValue Nat) 10 0
      [⟨10, none⟩]).1 = WtResult.timedOut ∧
    (wait_timeout 1 (⟨5, 1⟩ : SharedValue Nat) 10 0 [⟨10, none⟩]).2 ≠ [] :=
  ⟨(wait_timeout_spec 1 10 0 ⟨5, 1⟩ [⟨10, none⟩]).2.1 [] 10 [] rfl rfl
      (by simp),
   (wait_timeout_spec 1 10 0 ⟨5, 1⟩ [⟨10, none⟩]).2.2.2 rfl rfl ⟨10, none⟩ []
      rfl⟩

/-- Claim C5 counterexample: on a wake that the primitive reports as timed
out, the std backend's `wait_timeout` still returns the guard (it discards the
timeout flag, returning no guard only on a poison error), while the
parking_lot backend — and the spec's lock-abstraction contract — return no
guard; so the two backends are not observably equivalent and the std backend
violates the contract. -/
theorem backend_wait_timeout_cex :
    stdCondvarWaitTimeout (StdWait.ok () true) = some () ∧
    plCondvarWaitTimeout () true = none ∧
    contractWaitTimeout () true = none ∧
    stdCondvarWaitTimeout (StdWait.ok () true) ≠ plCondvarWaitTimeout () true ∧
    stdCondvarWaitTimeout (StdWait.ok () true) ≠ contractWaitTimeout () true :=
  ⟨rfl, rfl, rfl, by decide, by decide⟩

/-- Claim C5 amended: the parking_lot backend's `wait_timeout` satisfies the
lock-abstraction contract (no guard exactly on a reported timeout); the std
backend instead returns the guard on every non-poisoned wake, even a
timed-out one, and returns no guard only on a poison error; consequently the
two backends agree exactly on wakes that did not time out. -/
theorem backend_wait_timeout_amended (σ : Type) (g : σ) (t : Bool) :
    plCondvarWaitTimeout g t = contractWaitTimeout g t ∧
    stdCondvarWaitTimeout (StdWait.ok g t) = some g ∧
    stdCondvarWaitTimeout (StdWait.err g) = (none : Option σ) ∧
    (stdCondvarWaitTimeout (StdWait.ok g t) = plCondvarWaitTimeout g t ↔
      t = false) := by
  refine ⟨rfl, rfl, rfl, ?_⟩
  cases t <;> simp [stdCondvarWaitTimeout, plCondvarWaitTimeout]
